import Mathlib

/-!
Shallow embedding of `src/spacex-dash-app.py`, a Dash dashboard over a CSV of
SpaceX launch records.  Pandas dataframes are modelled as lists of records,
pandas floating-point cells as rationals (`none` standing for a missing
value / NaN), and the two Dash callbacks as pure functions on the dataframe.
Only the data content of the produced figures is modelled (the filtered rows
of the scatter plot, the per-class slice counts of the pie chart); titles,
colours and axis labels are presentation handled by plotly.
-/

/-- One parsed CSV row before cleaning: any of the four columns the app uses
may hold a missing value (NaN), modelled as `none`. -/
structure RawRecord where
  launchSite : Option String
  payloadMassKg : Option ℚ
  outcomeClass : Option ℕ
  boosterVersionCategory : Option String
deriving DecidableEq

/-- A row surviving line 21, `dropna(subset=['Payload Mass (kg)', 'Launch Site',
'class'], inplace=True)`: those three fields are present.  `Booster Version
Category` is not in the dropna subset, so it may still be missing. -/
structure LaunchRecord where
  launchSite : String
  payloadMassKg : ℚ
  outcomeClass : ℕ
  boosterVersionCategory : Option String
deriving DecidableEq

/-- Line 21: drop every row missing a value in `Payload Mass (kg)`,
`Launch Site` or `class`; the survivors keep all their cells. -/
def cleanDataset (rows : List RawRecord) : List LaunchRecord :=
  rows.filterMap fun r =>
    match r.payloadMassKg, r.launchSite, r.outcomeClass with
    | some p, some s, some c => some ⟨s, p, c, r.boosterVersionCategory⟩
    | _, _, _ => none

/-- Lines 109-137, the scatter-chart callback `get_scatter_chart`.  Line 112
destructures `low, high = payload_range`, which raises unless `payload_range`
has exactly two elements; that failure is modelled as `none`.  Lines 114-115
filter by payload range, lines 117-135 keep only the selected site unless it
is `"ALL"`.  The figure is modelled by its point rows, in dataframe order. -/
def get_scatter_chart (spacex_df : List LaunchRecord) (selected_site : String)
    (payload_range : List ℚ) : Option (List LaunchRecord) :=
  match payload_range with
  | [low, high] =>
    let filtered_df := spacex_df.filter fun r =>
      decide (low ≤ r.payloadMassKg) && decide (r.payloadMassKg ≤ high)
    if selected_site = "ALL" then some filtered_df
    else some (filtered_df.filter fun r => decide (r.launchSite = selected_site))
  | _ => none

lemma get_scatter_chart_eq_filter (spacex_df : List LaunchRecord)
    (selected_site : String) (low high : ℚ) :
    get_scatter_chart spacex_df selected_site [low, high] =
      some (spacex_df.filter fun r =>
        (decide (low ≤ r.payloadMassKg) && decide (r.payloadMassKg ≤ high)) &&
        (decide (selected_site = "ALL") || decide (r.launchSite = selected_site))) := by
  by_cases hs : selected_site = "ALL"
  · simp [get_scatter_chart, hs]
  · simp only [get_scatter_chart, if_neg hs, List.filter_filter, Option.some.injEq]
    refine List.filter_congr fun r hr => ?_
    simp [hs, Bool.and_comm]

/-- C1: for every dataset, site selector and payload range `[low, high]`, the
scatter-chart output is exactly the sublist of records satisfying
`low ≤ payloadMassKg ≤ high` and (`site = "ALL"` or `launchSite = site`);
being a `List.filter` of the input, it contains no other record and keeps the
surviving records in their input order. -/
theorem get_scatter_chart_spec (spacex_df : List LaunchRecord)
    (selected_site : String) (low high : ℚ) :
    get_scatter_chart spacex_df selected_site [low, high] =
      some (spacex_df.filter fun r =>
        (decide (low ≤ r.payloadMassKg) && decide (r.payloadMassKg ≤ high)) &&
        (decide (selected_site = "ALL") || decide (r.launchSite = selected_site))) :=
  get_scatter_chart_eq_filter spacex_df selected_site low high

/-- C3: with `low > high` the scatter callback returns an empty sequence (not
an error), and with `low = high` it returns exactly the records whose payload
mass equals the common bound, for the selected site. -/
theorem get_scatter_chart_boundary (spacex_df : List LaunchRecord)
    (selected_site : String) (low high : ℚ) :
    (high < low → get_scatter_chart spacex_df selected_site [low, high] = some []) ∧
    get_scatter_chart spacex_df selected_site [low, low] =
      some (spacex_df.filter fun r =>
        decide (r.payloadMassKg = low) &&
        (decide (selected_site = "ALL") || decide (r.launchSite = selected_site))) := by
  constructor
  · intro hlt
    rw [get_scatter_chart_eq_filter]
    refine congrArg some (List.filter_eq_nil_iff.mpr fun r hr => ?_)
    simp only [Bool.and_eq_true, decide_eq_true_eq, not_and]
    rintro ⟨h1, h2⟩
    exact absurd (h1.trans h2) (not_le.mpr hlt)
  · rw [get_scatter_chart_eq_filter]
    refine congrArg some (List.filter_congr fun r hr => ?_)
    have : (r.payloadMassKg = low) ↔ (low ≤ r.payloadMassKg ∧ r.payloadMassKg ≤ low) := by
      constructor
      · rintro rfl; exact ⟨le_refl _, le_refl _⟩
      · rintro ⟨h1, h2⟩; exact le_antisymm h2 h1
    simp [this, Bool.and_comm]

/-- C10: the scatter callback succeeds exactly on payload ranges of length
two (line 112 destructures `low, high = payload_range`), and every
two-element range is accepted, including one with `low > high`. -/
theorem get_scatter_chart_range_arity (spacex_df : List LaunchRecord)
    (selected_site : String) (payload_range : List ℚ) :
    (∃ out, get_scatter_chart spacex_df selected_site payload_range = some out) ↔
      payload_range.length = 2 := by
  match payload_range with
  | [] => simp [get_scatter_chart]
  | [a] => simp [get_scatter_chart]
  | [a, b] =>
    simp only [List.length_cons, List.length_nil, get_scatter_chart, iff_true]
    by_cases hs : selected_site = "ALL" <;> simp [hs]
  | a :: b :: c :: t => simp [get_scatter_chart]

/-- Order-preserving deduplication, after pandas `Series.unique()` (line 33):
the distinct values of a column in order of first appearance. -/
def seriesUnique {α : Type} [DecidableEq α] : List α → List α
  | [] => []
  | a :: as => a :: (seriesUnique as).filter fun x => decide (x ≠ a)

/-- Grouping a column by value with one count per distinct value, as
`px.pie(df, names='class')` aggregates the `class` column (lines 83-88 and
93-98): each distinct value paired with the number of rows holding it. -/
def valueCounts (ks : List ℕ) : List (ℕ × ℕ) :=
  (seriesUnique ks).map fun c => (c, ks.countP fun k => decide (k = c))

/-- Line 33: `launch_sites = spacex_df['Launch Site'].unique().tolist()`. -/
def launch_sites (spacex_df : List LaunchRecord) : List String :=
  seriesUnique (spacex_df.map fun r => r.launchSite)

/-- Lines 79-99, the pie-chart callback `get_pie_chart`.  For `"ALL"` the
whole dataframe is aggregated by `class`; otherwise the dataframe is first
restricted to the selected site (line 92).  The figure is modelled by its
slices: each outcome class present paired with its record count. -/
def get_pie_chart (spacex_df : List LaunchRecord) (entered_site : String) :
    List (ℕ × ℕ) :=
  if entered_site = "ALL" then
    valueCounts (spacex_df.map fun r => r.outcomeClass)
  else
    let df_site := spacex_df.filter fun r => decide (r.launchSite = entered_site)
    valueCounts (df_site.map fun r => r.outcomeClass)

lemma mem_seriesUnique {α : Type} [DecidableEq α] (l : List α) (a : α) :
    a ∈ seriesUnique l ↔ a ∈ l := by
  induction l with
  | nil => simp [seriesUnique]
  | cons x xs ih =>
    by_cases hax : a = x
    · simp [seriesUnique, hax]
    · simp [seriesUnique, List.mem_filter, hax, ih]

lemma nodup_seriesUnique {α : Type} [DecidableEq α] (l : List α) :
    (seriesUnique l).Nodup := by
  induction l with
  | nil => simp [seriesUnique]
  | cons x xs ih =>
    refine List.Pairwise.cons (fun b hb => ?_) (ih.filter _)
    rcases List.mem_filter.mp hb with ⟨-, hbx⟩
    have hbx2 : b ≠ x := by simpa using hbx
    exact fun hxb => hbx2 hxb.symm

lemma sum_map_add_split {α : Type} (cs : List α) (f g : α → ℕ) :
    (cs.map fun c => f c + g c).sum = (cs.map f).sum + (cs.map g).sum := by
  induction cs with
  | nil => simp
  | cons c cs ih => simp [ih]; omega

lemma sum_indicator_of_not_mem {α : Type} [DecidableEq α] (cs : List α) (k : α)
    (hk : k ∉ cs) :
    (cs.map fun c => if k = c then 1 else 0).sum = 0 := by
  induction cs with
  | nil => simp
  | cons c cs ih =>
    simp only [List.mem_cons, not_or] at hk
    simp [hk.1, ih hk.2]

lemma sum_indicator_of_mem {α : Type} [DecidableEq α] (cs : List α) (k : α)
    (hnd : cs.Nodup) (hk : k ∈ cs) :
    (cs.map fun c => if k = c then 1 else 0).sum = 1 := by
  induction cs with
  | nil => simp at hk
  | cons c cs ih =>
    rcases List.nodup_cons.mp hnd with ⟨hc, hnd2⟩
    by_cases hkc : k = c
    · subst hkc
      simp [sum_indicator_of_not_mem cs k hc]
    · rcases List.mem_cons.mp hk with h | h
      · exact absurd h hkc
      · simp [hkc, ih hnd2 h]

lemma sum_countP_over_cover {α : Type} [DecidableEq α] (ks cs : List α)
    (hnd : cs.Nodup) (hcover : ∀ k ∈ ks, k ∈ cs) :
    (cs.map fun c => ks.countP fun k => decide (k = c)).sum = ks.length := by
  induction ks with
  | nil => simp
  | cons k ks ih =>
    have hk : k ∈ cs := hcover k (List.mem_cons_self k ks)
    have hks : ∀ x ∈ ks, x ∈ cs := fun x hx => hcover x (List.mem_cons_of_mem k hx)
    simp only [List.countP_cons, decide_eq_true_eq, List.length_cons]
    rw [sum_map_add_split, ih hks, sum_indicator_of_mem cs k hnd hk]

lemma sum_valueCounts (ks : List ℕ) :
    ((valueCounts ks).map Prod.snd).sum = ks.length := by
  have hmap : (valueCounts ks).map Prod.snd =
      (seriesUnique ks).map fun c => ks.countP fun k => decide (k = c) := by
    simp [valueCounts, List.map_map, Function.comp]
  rw [hmap]
  exact sum_countP_over_cover ks (seriesUnique ks) (nodup_seriesUnique ks)
    (fun k hk => (mem_seriesUnique ks k).mpr hk)

lemma get_pie_chart_eq_valueCounts (spacex_df : List LaunchRecord)
    (entered_site : String) :
    get_pie_chart spacex_df entered_site =
      valueCounts ((if entered_site = "ALL" then spacex_df
        else spacex_df.filter fun r => decide (r.launchSite = entered_site)).map
        fun r => r.outcomeClass) := by
  by_cases hs : entered_site = "ALL" <;> simp [get_pie_chart, hs]

lemma mem_valueCounts (ks : List ℕ) (p : ℕ × ℕ) (hp : p ∈ valueCounts ks) :
    p.1 ∈ ks ∧ p.2 = ks.countP fun k => decide (k = p.1) := by
  rcases List.mem_map.mp hp with ⟨c, hc, rfl⟩
  exact ⟨(mem_seriesUnique ks c).mp hc, rfl⟩

/-- C2: the slice counts of the pie-chart output sum to the number of records
of the selected site: the whole dataframe size for `"ALL"`, and the number of
records with `launchSite = site` otherwise; in particular this holds for every
site offered by the dropdown, `"ALL"` and each distinct launch site. -/
theorem get_pie_chart_total (spacex_df : List LaunchRecord) (entered_site : String) :
    ((get_pie_chart spacex_df entered_site).map Prod.snd).sum =
      if entered_site = "ALL" then spacex_df.length
      else (spacex_df.filter fun r => decide (r.launchSite = entered_site)).length := by
  by_cases hs : entered_site = "ALL" <;>
    simp [get_pie_chart, hs, sum_valueCounts, List.length_map]

/-- C6: no zero-count slice is synthesized by the pie chart: every slice has a
positive count, and a class value appears as a slice only when some record of
the selection carries it, so an outcome class absent from the selection is
simply omitted from the output. -/
theorem get_pie_chart_omits_absent_classes (spacex_df : List LaunchRecord)
    (entered_site : String) :
    (∀ p ∈ get_pie_chart spacex_df entered_site, 0 < p.2) ∧
    (∀ p ∈ get_pie_chart spacex_df entered_site,
      ∃ r ∈ (if entered_site = "ALL" then spacex_df
             else spacex_df.filter fun s => decide (s.launchSite = entered_site)),
        r.outcomeClass = p.1) := by
  simp only [get_pie_chart_eq_valueCounts]
  refine ⟨fun p hp => ?_, fun p hp => ?_⟩
  · rcases mem_valueCounts _ p hp with ⟨h1, h2⟩
    rw [h2]
    exact List.countP_pos_iff.mpr ⟨p.1, h1, by simp⟩
  · rcases mem_valueCounts _ p hp with ⟨h1, -⟩
    rcases List.mem_map.mp h1 with ⟨r, hr, hrc⟩
    exact ⟨r, hr, hrc⟩

/-- C4: for a site outside the dropdown values (`"ALL"` and the distinct
launch sites of the dataframe), both callbacks behave as "no matching
records": the pie chart has no slices and the scatter chart is an empty
sequence, for every payload range; neither raises. -/
theorem invalid_site_yields_empty (spacex_df : List LaunchRecord) (site : String)
    (hall : site ≠ "ALL") (hmem : site ∉ launch_sites spacex_df) :
    get_pie_chart spacex_df site = [] ∧
    ∀ low high : ℚ, get_scatter_chart spacex_df site [low, high] = some [] := by
  have hnone : ∀ r ∈ spacex_df, ¬(r.launchSite = site) := by
    intro r hr heq
    exact hmem ((mem_seriesUnique _ site).mpr (List.mem_map.mpr ⟨r, hr, heq⟩))
  have hfilter : (spacex_df.filter fun r => decide (r.launchSite = site)) = [] :=
    List.filter_eq_nil_iff.mpr fun r hr => by simpa using hnone r hr
  constructor
  · simp [get_pie_chart, hall, hfilter, valueCounts, seriesUnique]
  · intro low high
    rw [get_scatter_chart_eq_filter]
    refine congrArg some (List.filter_eq_nil_iff.mpr fun r hr => ?_)
    simp [hall, hnone r hr]

/-- A small concrete cleaned dataframe used to instantiate theorems. -/
def sampleDf : List LaunchRecord :=
  [⟨"CCAFS LC-40", 500, 0, some "v1.0"⟩, ⟨"KSC LC-39A", 3000, 1, some "FT"⟩]

/-- Witness for C4 at a concrete dataframe and a site not in its dropdown. -/
theorem invalid_site_yields_empty_witness :
    get_pie_chart sampleDf "VAFB SLC-4E" = [] ∧
    ∀ low high : ℚ, get_scatter_chart sampleDf "VAFB SLC-4E" [low, high] = some [] :=
  invalid_site_yields_empty sampleDf "VAFB SLC-4E" (by decide) (by decide)

/-- Pandas `Series.min()` over a column (line 26): the least value, `none`
(NaN) on an empty column. -/
def seriesMin : List ℚ → Option ℚ
  | [] => none
  | x :: xs =>
    match seriesMin xs with
    | none => some x
    | some m => some (min x m)

/-- Pandas `Series.max()` over a column (line 25): the greatest value, `none`
(NaN) on an empty column. -/
def seriesMax : List ℚ → Option ℚ
  | [] => none
  | x :: xs =>
    match seriesMax xs with
    | none => some x
    | some m => some (max x m)

/-- Line 26: `min_payload = spacex_df['Payload Mass (kg)'].min()`. -/
def min_payload (spacex_df : List LaunchRecord) : Option ℚ :=
  seriesMin (spacex_df.map fun r => r.payloadMassKg)

/-- Line 25: `max_payload = spacex_df['Payload Mass (kg)'].max()`. -/
def max_payload (spacex_df : List LaunchRecord) : Option ℚ :=
  seriesMax (spacex_df.map fun r => r.payloadMassKg)

lemma seriesMin_eq_none (l : List ℚ) : seriesMin l = none ↔ l = [] := by
  cases l with
  | nil => simp [seriesMin]
  | cons x xs =>
    simp only [seriesMin]
    cases seriesMin xs <;> simp

lemma seriesMax_eq_none (l : List ℚ) : seriesMax l = none ↔ l = [] := by
  cases l with
  | nil => simp [seriesMax]
  | cons x xs =>
    simp only [seriesMax]
    cases seriesMax xs <;> simp

lemma seriesMin_spec (l : List ℚ) :
    ∀ m : ℚ, seriesMin l = some m ↔ m ∈ l ∧ ∀ x ∈ l, m ≤ x := by
  induction l with
  | nil => intro m; simp [seriesMin]
  | cons x xs ih =>
    intro m
    cases h : seriesMin xs with
    | none =>
      have hxs : xs = [] := (seriesMin_eq_none xs).mp h
      subst hxs
      simp only [seriesMin, Option.some.injEq, List.mem_singleton,
        List.forall_mem_singleton]
      constructor
      · rintro rfl; exact ⟨rfl, fun y hy => hy.ge⟩
      · rintro ⟨rfl, -⟩; rfl
    | some mm =>
      have ihmm : mm ∈ xs ∧ ∀ y ∈ xs, mm ≤ y := (ih mm).mp h
      simp only [seriesMin, h, Option.some.injEq]
      constructor
      · rintro rfl
        refine ⟨?_, ?_⟩
        · rcases min_choice x mm with hc | hc
          · rw [hc]; exact List.mem_cons_self x xs
          · rw [hc]; exact List.mem_cons_of_mem x ihmm.1
        · intro y hy
          rcases List.mem_cons.mp hy with rfl | hy2
          · exact min_le_left _ _
          · exact le_trans (min_le_right x mm) (ihmm.2 y hy2)
      · rintro ⟨hm, hlb⟩
        have h1 : m ≤ min x mm :=
          le_min (hlb x (List.mem_cons_self x xs))
            (hlb mm (List.mem_cons_of_mem x ihmm.1))
        have h2 : min x mm ≤ m := by
          rcases List.mem_cons.mp hm with rfl | hm2
          · exact min_le_left _ _
          · exact le_trans (min_le_right x mm) (ihmm.2 m hm2)
        exact le_antisymm h2 h1

lemma seriesMax_spec (l : List ℚ) :
    ∀ m : ℚ, seriesMax l = some m ↔ m ∈ l ∧ ∀ x ∈ l, x ≤ m := by
  induction l with
  | nil => intro m; simp [seriesMax]
  | cons x xs ih =>
    intro m
    cases h : seriesMax xs with
    | none =>
      have hxs : xs = [] := (seriesMax_eq_none xs).mp h
      subst hxs
      simp only [seriesMax, Option.some.injEq, List.mem_singleton,
        List.forall_mem_singleton]
      constructor
      · rintro rfl; exact ⟨rfl, fun y hy => hy.le⟩
      · rintro ⟨rfl, -⟩; rfl
    | some mm =>
      have ihmm : mm ∈ xs ∧ ∀ y ∈ xs, y ≤ mm := (ih mm).mp h
      simp only [seriesMax, h, Option.some.injEq]
      constructor
      · rintro rfl
        refine ⟨?_, ?_⟩
        · rcases max_choice x mm with hc | hc
          · rw [hc]; exact List.mem_cons_self x xs
          · rw [hc]; exact List.mem_cons_of_mem x ihmm.1
        · intro y hy
          rcases List.mem_cons.mp hy with rfl | hy2
          · exact le_max_left _ _
          · exact le_trans (ihmm.2 y hy2) (le_max_right x mm)
      · rintro ⟨hm, hub⟩
        have h1 : max x mm ≤ m :=
          max_le (hub x (List.mem_cons_self x xs))
            (hub mm (List.mem_cons_of_mem x ihmm.1))
        have h2 : m ≤ max x mm := by
          rcases List.mem_cons.mp hm with rfl | hm2
          · exact le_max_left _ _
          · exact le_trans (ihmm.2 m hm2) (le_max_right x mm)
        exact le_antisymm h1 h2

lemma seriesUnique_pairwise_indexOf {α : Type} [DecidableEq α] (l : List α) :
    (seriesUnique l).Pairwise fun a b => l.indexOf a < l.indexOf b := by
  induction l with
  | nil => simp [seriesUnique]
  | cons x xs ih =>
    refine List.Pairwise.cons (fun b hb => ?_) ?_
    · rcases List.mem_filter.mp hb with ⟨-, hbx⟩
      have hbx2 : b ≠ x := by simpa using hbx
      rw [List.indexOf_cons_self, List.indexOf_cons_ne xs hbx2.symm]
      exact Nat.succ_pos _
    · refine List.Pairwise.imp_of_mem ?_ (ih.filter _)
      intro a b ha hb hab
      have ha2 : a ≠ x := by simpa using (List.mem_filter.mp ha).2
      have hb2 : b ≠ x := by simpa using (List.mem_filter.mp hb).2
      rw [List.indexOf_cons_ne xs ha2.symm, List.indexOf_cons_ne xs hb2.symm]
      exact Nat.succ_lt_succ hab

lemma cleanDataset_mem (rows : List RawRecord) :
    ∀ rec ∈ cleanDataset rows, ∃ raw ∈ rows,
      raw.launchSite = some rec.launchSite ∧
      raw.payloadMassKg = some rec.payloadMassKg ∧
      raw.outcomeClass = some rec.outcomeClass := by
  intro rec h
  rcases List.mem_filterMap.mp h with ⟨raw, hraw, hf⟩
  rcases raw with ⟨ls, pm, oc, bv⟩
  cases pm with
  | none => exact Option.noConfusion hf
  | some p =>
    cases ls with
    | none => exact Option.noConfusion hf
    | some s =>
      cases oc with
      | none => exact Option.noConfusion hf
      | some c =>
        obtain rfl : (⟨s, p, c, bv⟩ : LaunchRecord) = rec := Option.some.inj hf
        exact ⟨⟨some s, some p, some c, bv⟩, hraw, rfl, rfl, rfl⟩

lemma cleanDataset_length (rows : List RawRecord) :
    (cleanDataset rows).length = rows.countP fun r =>
      r.payloadMassKg.isSome && r.launchSite.isSome && r.outcomeClass.isSome := by
  induction rows with
  | nil => rfl
  | cons r rows ih =>
    rcases r with ⟨ls, pm, oc, bv⟩
    cases ls <;> cases pm <;> cases oc <;>
      simp [cleanDataset, List.filterMap_cons, List.countP_cons,
        ← ih, cleanDataset]

/-- C5: after loading and cleaning, every surviving record carries present
values of the three required columns -- no record with a missing
`Payload Mass (kg)`, `Launch Site` or `class` survives, and exactly the rows
with all three present do; `min_payload` and `max_payload` are the minimum
and maximum of the surviving payload masses; and `launch_sites` holds exactly
the surviving launch-site values, ordered by first appearance. -/
theorem load_and_clean_spec (rows : List RawRecord) :
    (∀ rec ∈ cleanDataset rows, ∃ raw ∈ rows,
        raw.launchSite = some rec.launchSite ∧
        raw.payloadMassKg = some rec.payloadMassKg ∧
        raw.outcomeClass = some rec.outcomeClass) ∧
    (cleanDataset rows).length = (rows.countP fun r =>
        r.payloadMassKg.isSome && r.launchSite.isSome && r.outcomeClass.isSome) ∧
    (∀ m, min_payload (cleanDataset rows) = some m ↔
        m ∈ (cleanDataset rows).map (fun r => r.payloadMassKg) ∧
        ∀ p ∈ (cleanDataset rows).map (fun r => r.payloadMassKg), m ≤ p) ∧
    (∀ m, max_payload (cleanDataset rows) = some m ↔
        m ∈ (cleanDataset rows).map (fun r => r.payloadMassKg) ∧
        ∀ p ∈ (cleanDataset rows).map (fun r => r.payloadMassKg), p ≤ m) ∧
    (∀ s, s ∈ launch_sites (cleanDataset rows) ↔
        s ∈ (cleanDataset rows).map fun r => r.launchSite) ∧
    (launch_sites (cleanDataset rows)).Pairwise (fun a b =>
      ((cleanDataset rows).map fun r => r.launchSite).indexOf a <
      ((cleanDataset rows).map fun r => r.launchSite).indexOf b) :=
  ⟨cleanDataset_mem rows, cleanDataset_length rows,
    fun m => seriesMin_spec _ m, fun m => seriesMax_spec _ m,
    fun s => mem_seriesUnique _ s, seriesUnique_pairwise_indexOf _⟩

/-- A parsed CSV source file: its column names, and its rows projected onto
the four columns the app reads (a row's field is meaningful only when the
matching column is present in `cols`). -/
structure RawTable where
  cols : List String
  rows : List RawRecord
deriving DecidableEq

/-- The ways lines 13-27 can fail: `read_csv` raising (file missing,
unreadable or unparseable), or `dropna(subset=[...])` raising a `KeyError`
because a column named in the subset is absent from the file. -/
inductive LoadError where
  | readFailed
  | missingColumn
deriving DecidableEq

/-- Lines 13-27, the import-time load.  `read_csv` raising is modelled as a
`none` source (the `except` block logs and re-raises, so the app never
starts).  Then `dropna(subset=['Payload Mass (kg)', 'Launch Site', 'class'])`
raises a `KeyError` when one of those three columns is absent.  The later
`max`/`min` over `Payload Mass (kg)` (lines 25-26) and `unique` over
`Launch Site` (line 33) touch only columns already required by the dropna
subset, and no import-time statement reads `Booster Version Category`: that
column is first read inside the scatter callback (line 123), at request
time. -/
def startup (src : Option RawTable) : Except LoadError (List LaunchRecord) :=
  match src with
  | none => Except.error LoadError.readFailed
  | some t =>
    if ["Payload Mass (kg)", "Launch Site", "class"].all
        (fun c => decide (c ∈ t.cols)) then
      Except.ok (cleanDataset t.rows)
    else Except.error LoadError.missingColumn

/-- A CSV holding the three dropna columns (plus an id column) but lacking
`Booster Version Category`. -/
def tableNoBooster : RawTable :=
  ⟨["Flight Number", "Launch Site", "class", "Payload Mass (kg)"],
   [⟨some "CCAFS LC-40", some 500, some 0, none⟩]⟩

/-- Counterexample to C8 as stated: a source file lacking the
`Booster Version Category` column starts up fine -- no import-time statement
reads that column -- so its absence does not make startup fail. -/
theorem startup_without_booster_column_ok :
    "Booster Version Category" ∉ tableNoBooster.cols ∧
    startup (some tableNoBooster) = Except.ok (cleanDataset tableNoBooster.rows) :=
  ⟨by decide, rfl⟩

/-- C8 amended: startup succeeds exactly when the source file is readable and
has the three columns `Payload Mass (kg)`, `Launch Site` and `class`; when
the file is missing or unreadable, or one of those three columns is absent,
the load raises and the process does not proceed to serve requests.  Absence
of `Booster Version Category` alone does not prevent startup. -/
theorem startup_required_columns (src : Option RawTable) :
    (∃ df, startup src = Except.ok df) ↔
      ∃ t, src = some t ∧ "Payload Mass (kg)" ∈ t.cols ∧
        "Launch Site" ∈ t.cols ∧ "class" ∈ t.cols := by
  cases src with
  | none => simp [startup]
  | some t =>
    constructor
    · rintro ⟨df, hdf⟩
      by_cases hc : (["Payload Mass (kg)", "Launch Site", "class"].all
          fun c => decide (c ∈ t.cols)) = true
      · refine ⟨t, rfl, ?_⟩
        simpa [List.all_cons, and_assoc] using hc
      · rw [startup, if_neg hc] at hdf
        exact absurd hdf (by simp)
    · rintro ⟨t2, ht2, hmem⟩
      have hc : (["Payload Mass (kg)", "Launch Site", "class"].all
          fun c => decide (c ∈ t2.cols)) = true := by
        simp [List.all_cons, hmem.1, hmem.2.1, hmem.2.2]
      rw [ht2, startup, if_pos hc]
      exact ⟨cleanDataset t2.rows, rfl⟩

/-- The module-level state the Dash callbacks close over: the global
dataframe `spacex_df` (line 14), shared by every request handler. -/
structure AppState where
  spacex_df : List LaunchRecord
deriving DecidableEq

/-- One chart recomputation, as Dash dispatches it on a control change: the
pie callback receives the dropdown value (line 77), the scatter callback the
dropdown value and the slider range (lines 105-106). -/
inductive ChartRequest where
  | pie (entered_site : String)
  | scatter (selected_site : String) (payload_range : List ℚ)

/-- A rendered figure, modelled by its data content. -/
inductive ChartFigure where
  | pieFig (slices : List (ℕ × ℕ))
  | scatterFig (points : Option (List LaunchRecord))
deriving DecidableEq

/-- One callback invocation: it reads the shared dataframe and returns a
figure.  Neither callback body (lines 79-99, 109-137) assigns to `spacex_df`
or to any other module state, so the state after the call is the state
before it. -/
def handleRequest (st : AppState) : ChartRequest → ChartFigure × AppState
  | ChartRequest.pie site =>
    (ChartFigure.pieFig (get_pie_chart st.spacex_df site), st)
  | ChartRequest.scatter site range =>
    (ChartFigure.scatterFig (get_scatter_chart st.spacex_df site range), st)

/-- A session: the figures of a sequence of requests, threading the shared
module state through each call in order. -/
def handleRequests (st : AppState) : List ChartRequest → List ChartFigure × AppState
  | [] => ([], st)
  | c :: cs =>
    let r := handleRequest st c
    let rest := handleRequests r.2 cs
    (r.1 :: rest.1, rest.2)

lemma handleRequest_state (st : AppState) (c : ChartRequest) :
    (handleRequest st c).2 = st := by
  cases c <;> rfl

lemma handleRequests_state (st : AppState) (cs : List ChartRequest) :
    (handleRequests st cs).2 = st := by
  induction cs generalizing st with
  | nil => rfl
  | cons c cs ih => rw [handleRequests, handleRequest_state, ih]

/-- C7: both callbacks are deterministic pure functions of the dataset and
the filter selection: the figure a request produces after any earlier
sequence of chart computations equals the figure it produces on the freshly
loaded state, so two calls with identical inputs yield identical outputs and
no hidden state influences the result. -/
theorem callbacks_deterministic (st : AppState) (history : List ChartRequest)
    (c : ChartRequest) :
    (handleRequest (handleRequests st history).2 c).1 = (handleRequest st c).1 := by
  rw [handleRequests_state]

/-- C9: no sequence of chart computations with any filter selections mutates
the loaded dataset: afterwards the shared state, its records, the derived
min/max payloads and the distinct-sites list all equal their load-time
values. -/
theorem callbacks_no_mutation (st : AppState) (history : List ChartRequest) :
    (handleRequests st history).2 = st ∧
    (handleRequests st history).2.spacex_df = st.spacex_df ∧
    min_payload (handleRequests st history).2.spacex_df = min_payload st.spacex_df ∧
    max_payload (handleRequests st history).2.spacex_df = max_payload st.spacex_df ∧
    launch_sites (handleRequests st history).2.spacex_df = launch_sites st.spacex_df := by
  rw [handleRequests_state]
  exact ⟨rfl, rfl, rfl, rfl, rfl⟩
